import Mathlib

/- Verification development for riclib/rules_exporter.

   Shallow embedding of the two source files:
   - src/rules_exporter.go: the /probe handler, the process-wide
     ruleMetrics map of GaugeVecs, and queryPrometheus.
   - the cache package (Cache with Set/Get/Delete/Cleanup).

   Go maps are embedded as association lists (unique keys are the map
   representation invariant; lemmas that need it take a Nodup hypothesis).
   Go int64 nanosecond timestamps and durations are embedded as Int.
   float64 metric values are embedded as Rat; the decimal parser below
   embeds strconv.ParseFloat on plain decimal literals.  Code paths that
   panic at runtime (unchecked type assertions, GaugeVec.With on a label
   mismatch) are embedded as an explicit error outcome that aborts the
   request and carries the state mutated so far, because the ruleMetrics
   map is process-global and its updates survive the aborted request.  -/

namespace RulesExporter

/-- Generic association-list update, embedding Go map assignment
`m[k] = v`: replaces the first binding of the key or appends a new one. -/
def insertA {κ α : Type} [DecidableEq κ] (k : κ) (v : α) : List (κ × α) → List (κ × α)
  | [] => [(k, v)]
  | p :: rest => if p.1 = k then (k, v) :: rest else p :: insertA k v rest

/-- Generic association-list lookup, embedding Go map read `m[k]`. -/
def lookupA {κ α : Type} [DecidableEq κ] (k : κ) : List (κ × α) → Option α
  | [] => none
  | p :: rest => if p.1 = k then some p.2 else lookupA k rest

/-- Generic association-list removal, embedding Go `delete(m, k)`. -/
def eraseA {κ α : Type} [DecidableEq κ] (k : κ) : List (κ × α) → List (κ × α)
  | [] => []
  | p :: rest => if p.1 = k then eraseA k rest else p :: eraseA k rest

/- ============ rules_exporter.go: value parsing and data model ============ -/

/-- Consumes leading decimal digits of a character list, returning the
accumulated value, the number of digits consumed, and the rest. -/
def parseDigitsAux : List Char → ℕ → ℕ → ℕ × ℕ × List Char
  | [], acc, n => (acc, n, [])
  | c :: cs, acc, n =>
    if c.isDigit then parseDigitsAux cs (acc * 10 + (c.toNat - 48)) (n + 1)
    else (acc, n, c :: cs)

/-- Embedding of strconv.ParseFloat on plain decimal literals: optional
sign, integer digits, optional fractional digits (at least one digit in
total), optional decimal exponent.  Go additionally accepts Inf/NaN words,
hexadecimal floats and digit underscores, none of which occur in the
inputs this development evaluates; and the Go result is a float64 while
this model is exact in Rat, which agrees on the short literals used here.
Returns none exactly when Go returns an ErrSyntax error (in which case the
caller-visible value is 0, since the source discards the error). -/
def parseGoFloat (s : String) : Option ℚ :=
  let cs0 := s.data
  let sg : Bool × List Char :=
    match cs0 with
    | '+' :: r => (false, r)
    | '-' :: r => (true, r)
    | r => (false, r)
  let ipR := parseDigitsAux sg.2 0 0
  let fpR : ℕ × ℕ × List Char :=
    match ipR.2.2 with
    | '.' :: r => parseDigitsAux r 0 0
    | _ => (0, 0, ipR.2.2)
  if ipR.2.1 + fpR.2.1 = 0 then none
  else
    let exR : Option (Bool × ℕ × List Char) :=
      match fpR.2.2 with
      | 'e' :: r | 'E' :: r =>
        let esg : Bool × List Char :=
          match r with
          | '+' :: q => (false, q)
          | '-' :: q => (true, q)
          | q => (false, q)
        let ev := parseDigitsAux esg.2 0 0
        if ev.2.1 = 0 then none else some (esg.1, ev.1, ev.2.2)
      | _ => some (false, 0, fpR.2.2)
    match exR with
    | none => none
    | some (eneg, e, rest) =>
      if rest.isEmpty then
        let mag : ℕ := ipR.1 * 10 ^ fpR.2.1 + fpR.1
        let num : ℤ := if sg.1 then -(mag : ℤ) else (mag : ℤ)
        some (if eneg then Rat.divInt num ((10 ^ fpR.2.1 * 10 ^ e : ℕ) : ℤ)
          else Rat.divInt (num * ((10 ^ e : ℕ) : ℤ)) ((10 ^ fpR.2.1 : ℕ) : ℤ))
      else none

/-- Embedding of the Rule struct (record and expr fields of a rule). -/
structure Rule where
  record : String
  expr : String
deriving DecidableEq

/-- Embedding of the Group struct (target, rules, endpoint). -/
structure Group where
  target : String
  rules : List Rule
  endpoint : String
deriving DecidableEq

/-- Embedding of the Config struct: the targets map of the YAML file. -/
structure Config where
  targets : List (String × Group)
deriving DecidableEq

/-- A label map (Go: map[string]interface\x7b\x7d holding strings, and
prometheus.Labels).  Label values of the backend envelope are modelled as
strings, matching the documented envelope shape. -/
abbrev Lmap := List (String × String)

/-- One row of the backend result array, as seen by queryPrometheus before
its type assertions: either a malformed row (any assertion on the row
fails, which panics at runtime) or a metric label map plus the string at
index 1 of the value array. -/
inductive RawRow where
  | bad : RawRow
  | row (metric : Lmap) (valueStr : String) : RawRow
deriving DecidableEq

/-- The observable behavior of one backend call, as distinguished by
queryPrometheus: transport failure (client.Get error), JSON syntax failure
(Decode error), a decoded envelope on which the data/result type
assertions fail, or a well-shaped result array.  URL construction and
query escaping are transport details absorbed into this oracle. -/
inductive BackendResp where
  | transportErr : BackendResp
  | jsonErr : BackendResp
  | badShape : BackendResp
  | result (rows : List RawRow) : BackendResp
deriving DecidableEq

/-- Outcome of queryPrometheus: a returned error (transport or JSON
decode), a runtime panic (failed type assertion), or the parsed rows, each
being its metric label map with the key "value" overwritten by the row's
numeric string. -/
inductive QPRes where
  | err : QPRes
  | panicked : QPRes
  | ok (rows : List Lmap) : QPRes
deriving DecidableEq

/-- The row loop of queryPrometheus: none when some row's type assertion
panics, otherwise each metric map with labels["value"] = valueStr. -/
def parseRows : List RawRow → Option (List Lmap)
  | [] => some []
  | RawRow.bad :: _ => none
  | RawRow.row metric valueStr :: rest =>
    (parseRows rest).map (fun rs => insertA "value" valueStr metric :: rs)

/-- Embedding of queryPrometheus: maps the backend call's observable
behavior to the function's outcome. -/
def queryPrometheus (resp : BackendResp) : QPRes :=
  match resp with
  | BackendResp.transportErr => QPRes.err
  | BackendResp.jsonErr => QPRes.err
  | BackendResp.badShape => QPRes.panicked
  | BackendResp.result rows =>
    match parseRows rows with
    | none => QPRes.panicked
    | some rs => QPRes.ok rs

/-- Embedding of a prometheus.GaugeVec as used by the source: the label
names fixed at creation, and the series keyed by the label values in
labelNames order (prometheus keys a child by its label values). -/
structure GaugeVec where
  labelNames : List String
  series : List (List String × ℚ)
deriving DecidableEq

/-- Embedding of getLabelNames: the keys of the label map, in the order of
the model's map representation (Go map iteration order is arbitrary; only
the set matters downstream). -/
def getLabelNames (labels : Lmap) : List String :=
  labels.map Prod.fst

/-- Whether a label map matches a GaugeVec's schema, as GaugeVec.With
checks it: same number of labels and every declared name present. -/
def schemaMatches (vec : GaugeVec) (labels : Lmap) : Bool :=
  labels.length == vec.labelNames.length &&
    vec.labelNames.all (fun n => (lookupA n labels).isSome)

/-- Embedding of metric.With(labels).Set(value): none when With panics on
a label-schema mismatch, otherwise the vec with the series for this label
value combination created or updated to the value. -/
def withSet (vec : GaugeVec) (labels : Lmap) (value : ℚ) : Option GaugeVec :=
  if schemaMatches vec labels then
    some { vec with
      series := insertA (vec.labelNames.map (fun n => (lookupA n labels).getD ""))
        value vec.series }
  else none

/-- The process-global ruleMetrics map (rule record name to GaugeVec). -/
abbrev RM := List (String × GaugeVec)

/-- State threaded through one scrape: the global ruleMetrics map plus the
names registered with this request's fresh registry (registration happens
only when a GaugeVec is first created). -/
structure ScrapeState where
  rm : RM
  registered : List String
deriving DecidableEq

/-- Embedding of the Go filter that copies every pair of the row except
the "value" key into prometheus.Labels. -/
def eraseValueKey : Lmap → Lmap
  | [] => []
  | p :: rest => if p.1 = "value" then eraseValueKey rest else p :: eraseValueKey rest

/-- The body of the inner result loop of handler for one row: parse the
value string (discarding the parse error, so a failed parse yields 0),
build the labels without the "value" key, lazily create and register the
GaugeVec on first sight of the rule name, then With(...).Set(...).  An
error result is the runtime panic of With on a schema mismatch; it carries
the state as already mutated, since ruleMetrics is process-global. -/
def processRow (rule : Rule) (s : ScrapeState) (row : Lmap) :
    Except ScrapeState ScrapeState :=
  let valueStr := (lookupA "value" row).getD ""
  let value := (parseGoFloat valueStr).getD 0
  let labels := eraseValueKey row
  match lookupA rule.record s.rm with
  | none =>
    let vec : GaugeVec := ⟨getLabelNames labels, []⟩
    let rm1 := insertA rule.record vec s.rm
    let reg1 := s.registered ++ [rule.record]
    match withSet vec labels value with
    | none => Except.error ⟨rm1, reg1⟩
    | some vec2 => Except.ok ⟨insertA rule.record vec2 rm1, reg1⟩
  | some vec =>
    match withSet vec labels value with
    | none => Except.error ⟨s.rm, s.registered⟩
    | some vec2 => Except.ok ⟨insertA rule.record vec2 s.rm, s.registered⟩

/-- The inner result loop of handler over all rows of one rule. -/
def processRows (rule : Rule) : ScrapeState → List Lmap → Except ScrapeState ScrapeState
  | s, [] => Except.ok s
  | s, row :: rest =>
    match processRow rule s row with
    | Except.error s2 => Except.error s2
    | Except.ok s2 => processRows rule s2 rest

/-- The outer rule loop of handler: a query error is logged and the loop
continues with the next rule; a panic aborts the whole request. -/
def processRules (resp : String → String → BackendResp) (endpoint : String) :
    ScrapeState → List Rule → Except ScrapeState ScrapeState
  | s, [] => Except.ok s
  | s, rule :: rest =>
    match queryPrometheus (resp endpoint rule.expr) with
    | QPRes.err => processRules resp endpoint s rest
    | QPRes.panicked => Except.error s
    | QPRes.ok rows =>
      match processRows rule s rows with
      | Except.error s2 => Except.error s2
      | Except.ok s2 => processRules resp endpoint s2 rest

/-- The observable HTTP outcome of one /probe request: 400 for a missing
target parameter, 404 for an unknown target, a runtime panic (no 200
response is written), or 200 with the exposition body. -/
inductive HandlerOut where
  | badRequest : HandlerOut
  | notFound : HandlerOut
  | panicked : HandlerOut
  | ok (body : List (String × List (List String × ℚ))) : HandlerOut
deriving DecidableEq

/-- Embedding of the promhttp rendering of the per-request registry: the
metrics registered during this request, each with its current series read
from the final ruleMetrics state.  Exposition ordering is modelled as
registration and insertion order, a presentation detail. -/
def render (s : ScrapeState) : List (String × List (List String × ℚ)) :=
  s.registered.filterMap (fun name =>
    (lookupA name s.rm).map (fun v => (name, v.series)))

/-- Embedding of handler: the /probe request handler, parameterized by the
backend oracle resp, the current process-global ruleMetrics state, and the
target query parameter ("" when absent, as Go's Query().Get returns "").
Returns the ruleMetrics state after the request and the HTTP outcome. -/
def handler (config : Config) (resp : String → String → BackendResp)
    (ruleMetrics : RM) (target : String) : RM × HandlerOut :=
  if target = "" then (ruleMetrics, HandlerOut.badRequest)
  else
    match lookupA target config.targets with
    | none => (ruleMetrics, HandlerOut.notFound)
    | some group =>
      match processRules resp group.endpoint ⟨ruleMetrics, []⟩ group.rules with
      | Except.error s => (s.rm, HandlerOut.panicked)
      | Except.ok s => (s.rm, HandlerOut.ok (render s))

/- ================= concrete scenario inputs for the claims ============== -/

/-- A one-target, one-rule configuration: target "t" queried at endpoint
"e" with a single rule recording "r" from expression "q". -/
def cfg1 : Config := ⟨[("t", ⟨"t", [⟨"r", "q"⟩], "e"⟩)]⟩

/-- A backend oracle answering every query with one row
(instance="a") value "1". -/
def resp1 : String → String → BackendResp :=
  fun _ _ => BackendResp.result [RawRow.row [("instance", "a")] "1"]

/-- A backend oracle answering with two rows whose label-name sets differ:
(a="1") then (b="2"). -/
def resp2 : String → String → BackendResp :=
  fun _ _ => BackendResp.result
    [RawRow.row [("a", "1")] "1", RawRow.row [("b", "2")] "2"]

/-- A backend oracle answering with two rows sharing the label name l, the
first with a parseable value and the second with an unparseable one. -/
def resp3 (sv1 sv2 : String) : String → String → BackendResp :=
  fun _ _ => BackendResp.result
    [RawRow.row [("l", "x")] sv1, RawRow.row [("l", "y")] sv2]

/-- A two-rule configuration: target "t" with rules "ra" (from "qa") and
"rb" (from "qb") at endpoint "e". -/
def cfgAB : Config := ⟨[("t", ⟨"t", [⟨"ra", "qa"⟩, ⟨"rb", "qb"⟩], "e"⟩)]⟩

/-- A backend oracle for cfgAB: query "qa" gets the given response, query
"qb" gets one well-shaped row (l="x") value "1". -/
def respAB (ra : BackendResp) : String → String → BackendResp :=
  fun _ q => if q = "qa" then ra
    else BackendResp.result [RawRow.row [("l", "x")] "1"]

theorem lookupA_insertA_self {κ α : Type} [DecidableEq κ] (k : κ) (v : α)
    (m : List (κ × α)) : lookupA k (insertA k v m) = some v := by
  induction m with
  | nil => simp [insertA, lookupA]
  | cons p rest ih =>
    by_cases h : p.1 = k
    · simp [insertA, lookupA, h]
    · simp [insertA, lookupA, h, ih]

theorem lookupA_eq_none_of_not_mem {κ α : Type} [DecidableEq κ] (k : κ)
    (m : List (κ × α)) (h : k ∉ m.map Prod.fst) : lookupA k m = none := by
  induction m with
  | nil => rfl
  | cons p rest ih =>
    simp only [List.map_cons, List.mem_cons] at h
    push_neg at h
    have hne : ¬ p.1 = k := fun hh => h.1 hh.symm
    simp [lookupA, hne, ih h.2]

/- ===================== TTL cache (cache package) ===================== -/

/-- Embedding of the Go struct CacheItem: Value interface\x7b\x7d becomes a
type parameter, Expiration int64 (UnixNano) becomes Int. -/
structure CacheItem (V : Type) where
  value : V
  expiration : Int
deriving DecidableEq

/-- The cache entry map (Go: map[string]CacheItem). -/
abbrev CacheMap (V : Type) := List (String × CacheItem V)

/-- Embedding of Cache.Set: stores the value under the key with
expiration = now + duration (time.Now().Add(duration).UnixNano()). -/
def cacheSet {V : Type} (items : CacheMap V) (key : String) (value : V)
    (duration now : Int) : CacheMap V :=
  insertA key ⟨value, now + duration⟩ items

/-- Embedding of Cache.Get: returns none when the key is absent or when
now > expiration, otherwise the stored value. -/
def cacheGet {V : Type} (items : CacheMap V) (key : String) (now : Int) : Option V :=
  match lookupA key items with
  | none => none
  | some item => if now > item.expiration then none else some item.value

/-- Embedding of Cache.Delete: unconditional removal of the key. -/
def cacheDelete {V : Type} (items : CacheMap V) (key : String) : CacheMap V :=
  eraseA key items

/-- Embedding of Cache.Cleanup: deletes every entry with now > expiration. -/
def cacheCleanup {V : Type} : CacheMap V → Int → CacheMap V
  | [], _ => []
  | p :: rest, now =>
    if now > p.2.expiration then cacheCleanup rest now
    else p :: cacheCleanup rest now

theorem cacheCleanup_keys_subset {V : Type} (items : CacheMap V) (now : Int) :
    ∀ k, k ∈ (cacheCleanup items now).map Prod.fst → k ∈ items.map Prod.fst := by
  induction items with
  | nil => intro k h; simp [cacheCleanup] at h
  | cons p rest ih =>
    intro k h
    by_cases hexp : now > p.2.expiration
    · simp only [cacheCleanup, if_pos hexp] at h
      exact List.mem_cons_of_mem _ (ih k h)
    · simp only [cacheCleanup, if_neg hexp, List.map_cons, List.mem_cons] at h ⊢
      exact h.imp id (ih k)

/-- Claim C6, counterexample: with a negative ttl (time.Duration is a signed
int64, nothing in Set rejects it) the entry is created already expired, so
Set followed immediately by Get returns Miss, not the value — refuting the
claim as stated for every ttl. -/
theorem negative_ttl_roundtrip_misses :
    cacheGet (cacheSet ([] : CacheMap ℕ) "k" 5 (-1) 0) "k" 0 = none := by decide

/-- Claim C6 (amended): for a nonnegative ttl, Set(k, v, ttl) followed
immediately by Get(k) returns v; and Get(k) at any instant strictly past
the entry's expires-at (now + ttl) returns Miss. -/
theorem cache_roundtrip_and_expiry {V : Type} (items : CacheMap V) (k : String)
    (v : V) (d now now2 : Int) :
    (0 ≤ d → cacheGet (cacheSet items k v d now) k now = some v) ∧
    (now + d < now2 → cacheGet (cacheSet items k v d now) k now2 = none) := by
  constructor
  · intro hd
    simp only [cacheGet, cacheSet, lookupA_insertA_self]
    rw [if_neg (by omega)]
  · intro h
    simp only [cacheGet, cacheSet, lookupA_insertA_self]
    rw [if_pos (by omega)]

/-- Claim C6 witness: concrete instance of the round trip and the expiry. -/
theorem cache_roundtrip_and_expiry_witness :
    cacheGet (cacheSet ([] : CacheMap ℕ) "k" 5 10 0) "k" 0 = some 5 ∧
    cacheGet (cacheSet ([] : CacheMap ℕ) "k" 5 10 0) "k" 11 = none :=
  ⟨(cache_roundtrip_and_expiry [] "k" 5 10 0 11).1 (by decide),
   (cache_roundtrip_and_expiry [] "k" 5 10 0 11).2 (by decide)⟩

/-- Claim C8, counterexample: with a negative ttl the overwritten entry is
already expired, so the final Get returns Miss rather than v2 — refuting
the claim as stated for every ttl. -/
theorem negative_ttl_overwrite_misses :
    cacheGet (cacheSet (cacheSet ([] : CacheMap ℕ) "k" 1 (-1) 0) "k" 2 (-1) 0)
      "k" 0 = none := by decide

/-- Claim C8 (amended): the second Set unconditionally overwrites the entry,
so for a nonnegative ttl the immediate Get returns v2, and at no instant does
Get return v1 when v1 and v2 differ. -/
theorem cache_overwrite_last_write_wins {V : Type} (items : CacheMap V)
    (k : String) (v1 v2 : V) (d now now2 : Int) :
    (0 ≤ d →
      cacheGet (cacheSet (cacheSet items k v1 d now) k v2 d now) k now = some v2) ∧
    (v1 ≠ v2 →
      cacheGet (cacheSet (cacheSet items k v1 d now) k v2 d now) k now2 ≠ some v1) := by
  constructor
  · intro hd
    simp only [cacheGet, cacheSet, lookupA_insertA_self]
    rw [if_neg (by omega)]
  · intro hne
    simp only [cacheGet, cacheSet, lookupA_insertA_self]
    by_cases hexp : now2 > now + d
    · rw [if_pos hexp]; simp
    · rw [if_neg hexp]
      intro hcontra
      exact hne (Option.some.inj hcontra).symm

/-- Claim C8 witness: concrete instance of the overwrite behavior. -/
theorem cache_overwrite_last_write_wins_witness :
    cacheGet (cacheSet (cacheSet ([] : CacheMap ℕ) "k" 1 10 0) "k" 2 10 0)
      "k" 0 = some 2 ∧
    cacheGet (cacheSet (cacheSet ([] : CacheMap ℕ) "k" 1 10 0) "k" 2 10 0)
      "k" 0 ≠ some 1 :=
  ⟨(cache_overwrite_last_write_wins [] "k" 1 2 10 0 0).1 (by decide),
   (cache_overwrite_last_write_wins [] "k" 1 2 10 0 0).2 (by decide)⟩

/-- Claim C9: Cleanup removes exactly the entries on which Get would already
return Miss, so at a fixed instant Get after Cleanup agrees with Get without
Cleanup, for every key.  The Nodup hypothesis is the Go map representation
invariant (a map cannot bind one key twice). -/
theorem cleanup_preserves_get {V : Type} (items : CacheMap V) (k : String)
    (now : Int) (h : (items.map Prod.fst).Nodup) :
    cacheGet (cacheCleanup items now) k now = cacheGet items k now := by
  induction items with
  | nil => rfl
  | cons p rest ih =>
    simp only [List.map_cons, List.nodup_cons] at h
    by_cases hk : p.1 = k
    · by_cases hexp : now > p.2.expiration
      · have hnomem : k ∉ (cacheCleanup rest now).map Prod.fst := by
          intro hmem
          exact h.1 (hk ▸ cacheCleanup_keys_subset rest now k hmem)
        simp only [cacheCleanup, if_pos hexp, cacheGet, lookupA, if_pos hk,
          lookupA_eq_none_of_not_mem k _ hnomem]
      · simp only [cacheCleanup, if_neg hexp, cacheGet, lookupA, if_pos hk]
    · by_cases hexp : now > p.2.expiration
      · simp only [cacheCleanup, if_pos hexp, cacheGet, lookupA, if_neg hk]
        exact ih h.2
      · simp only [cacheCleanup, if_neg hexp, cacheGet, lookupA, if_neg hk]
        exact ih h.2

/-- Claim C9 witness: a cache with one expired and one live entry; Get agrees
before and after Cleanup on both keys. -/
theorem cleanup_preserves_get_witness :
    ((([("a", (⟨1, -1⟩ : CacheItem ℕ)), ("b", ⟨2, 100⟩)] : CacheMap ℕ).map
      Prod.fst).Nodup) ∧
    cacheGet (cacheCleanup [("a", (⟨1, -1⟩ : CacheItem ℕ)), ("b", ⟨2, 100⟩)] 0)
      "a" 0 = cacheGet [("a", (⟨1, -1⟩ : CacheItem ℕ)), ("b", ⟨2, 100⟩)] "a" 0 ∧
    cacheGet (cacheCleanup [("a", (⟨1, -1⟩ : CacheItem ℕ)), ("b", ⟨2, 100⟩)] 0)
      "b" 0 = cacheGet [("a", (⟨1, -1⟩ : CacheItem ℕ)), ("b", ⟨2, 100⟩)] "b" 0 :=
  ⟨by decide,
   cleanup_preserves_get [("a", ⟨1, -1⟩), ("b", ⟨2, 100⟩)] "a" 0 (by decide),
   cleanup_preserves_get [("a", ⟨1, -1⟩), ("b", ⟨2, 100⟩)] "b" 0 (by decide)⟩

theorem eraseValueKey_key_ne (m : Lmap) : ∀ p ∈ eraseValueKey m, p.1 ≠ "value" := by
  induction m with
  | nil => intro p hp; simp [eraseValueKey] at hp
  | cons q rest ih =>
    intro p hp
    by_cases h : q.1 = "value"
    · simp only [eraseValueKey, if_pos h] at hp
      exact ih p hp
    · simp only [eraseValueKey, if_neg h, List.mem_cons] at hp
      rcases hp with rfl | hp
      · exact h
      · exact ih p hp

theorem eraseValueKey_insertA_value (v : String) (m : Lmap) :
    eraseValueKey (insertA "value" v m) = eraseValueKey m := by
  induction m with
  | nil => rfl
  | cons p rest ih =>
    by_cases h : p.1 = "value"
    · simp [insertA, eraseValueKey, h]
    · simp [insertA, eraseValueKey, h, ih]

/-- Claim C1 (code finding): on the first scrape of target "t" the series
is rendered at value 1 and stored in the process-global ruleMetrics map;
on the second, identical scrape the GaugeVec still exists and still holds
the series at its last-set value, but the handler registers nothing with
its fresh per-request registry (registration happens only in the creation
branch), so the rendered body is empty — the series does not remain
exposed in later scrapes, contradicting the claim. -/
theorem second_scrape_omits_existing_series :
    (handler cfg1 resp1 [] "t").2 = HandlerOut.ok [("r", [(["a"], (1 : ℚ))])] ∧
    handler cfg1 resp1 (handler cfg1 resp1 [] "t").1 "t"
      = ((handler cfg1 resp1 [] "t").1, HandlerOut.ok []) ∧
    lookupA "r" (handler cfg1 resp1 (handler cfg1 resp1 [] "t").1 "t").1
      = some ⟨["instance"], [(["a"], (1 : ℚ))]⟩ :=
  ⟨by decide, by decide, by decide⟩

/-- Claim C2, counterexample: a scrape whose rule yields a row with label
set \x7ba\x7d and then a row with label set \x7bb\x7d does not merely drop the
second observation and keep serving: GaugeVec.With panics and the whole
request aborts with no exposition body; only the registry state keeps the
first series. -/
theorem schema_mismatch_panics_scrape :
    (handler cfg1 resp2 [] "t").2 = HandlerOut.panicked ∧
    lookupA "r" (handler cfg1 resp2 [] "t").1
      = some ⟨["a"], [(["1"], (1 : ℚ))]⟩ :=
  ⟨by decide, by decide⟩

/-- Claim C2 (amended): when a rule name already has a GaugeVec and an
observed row's label-name set fails the schema check, the observation is
dropped via a runtime panic that aborts the scrape, and the registry state
— in particular every previously-registered series of that rule — is left
exactly unchanged (though the aborted scrape exposes nothing). -/
theorem schema_mismatch_drops_observation (rule : Rule) (s : ScrapeState)
    (row : Lmap) (vec : GaugeVec)
    (hvec : lookupA rule.record s.rm = some vec)
    (hm : schemaMatches vec (eraseValueKey row) = false) :
    processRow rule s row = Except.error s := by
  simp [processRow, hvec, withSet, hm]

/-- Claim C2 witness: a registered vec over label name a and an observed
row over label name b. -/
theorem schema_mismatch_drops_observation_witness :
    lookupA "r" ([("r", (⟨["a"], [(["1"], (1 : ℚ))]⟩ : GaugeVec))] : RM)
      = some ⟨["a"], [(["1"], 1)]⟩ ∧
    schemaMatches ⟨["a"], [(["1"], (1 : ℚ))]⟩
      (eraseValueKey [("b", "2"), ("value", "2")]) = false ∧
    processRow ⟨"r", "q"⟩ ⟨[("r", ⟨["a"], [(["1"], 1)]⟩)], []⟩
        [("b", "2"), ("value", "2")]
      = Except.error ⟨[("r", ⟨["a"], [(["1"], 1)]⟩)], []⟩ :=
  ⟨by decide, by decide,
   schema_mismatch_drops_observation ⟨"r", "q"⟩
     ⟨[("r", ⟨["a"], [(["1"], 1)]⟩)], []⟩ [("b", "2"), ("value", "2")]
     ⟨["a"], [(["1"], 1)]⟩ (by decide) (by decide)⟩

/-- Claim C3, counterexample: with rows "12.5" and "NaNgarbage" the
resulting series set does not contain only the first row's series: the
unparseable row is not skipped, it produces a series at value 0 because
the source discards the ParseFloat error. -/
theorem unparseable_row_not_skipped :
    (handler cfg1 (resp3 "12.5" "NaNgarbage") [] "t").2
      ≠ HandlerOut.ok [("r", [(["x"], Rat.divInt 25 2)])] ∧
    (handler cfg1 (resp3 "12.5" "NaNgarbage") [] "t").2
      = HandlerOut.ok [("r", [(["x"], Rat.divInt 25 2), (["y"], 0)])] :=
  ⟨by decide, by decide⟩

/-- Claim C3 (amended): for any value strings of which the first parses to
q and the second fails to parse, the scrape renders both rows' series, the
first at q and the second at value 0 — evaluation continues, but the bad
row is kept at 0 rather than skipped. -/
theorem unparseable_row_yields_zero_series (sv1 sv2 : String) (q : ℚ)
    (h1 : parseGoFloat sv1 = some q) (h2 : parseGoFloat sv2 = none) :
    (handler cfg1 (resp3 sv1 sv2) [] "t").2
      = HandlerOut.ok [("r", [(["x"], q), (["y"], 0)])] := by
  have hred : (handler cfg1 (resp3 sv1 sv2) [] "t").2
      = HandlerOut.ok [("r", [(["x"], (parseGoFloat sv1).getD 0),
          (["y"], (parseGoFloat sv2).getD 0)])] := rfl
  rw [hred, h1, h2]
  rfl

/-- Claim C3 witness: the concrete strings of the spec scenario. -/
theorem unparseable_row_yields_zero_series_witness :
    parseGoFloat "12.5" = some (Rat.divInt 25 2) ∧
    parseGoFloat "NaNgarbage" = none ∧
    (handler cfg1 (resp3 "12.5" "NaNgarbage") [] "t").2
      = HandlerOut.ok [("r", [(["x"], Rat.divInt 25 2), (["y"], 0)])] :=
  ⟨by decide, by decide,
   unparseable_row_yields_zero_series "12.5" "NaNgarbage" (Rat.divInt 25 2)
     (by decide) (by decide)⟩

/-- Claim C4, counterexample: rule "ra" gets a response that decodes as
JSON but lacks the expected data/result shape; the type assertion panics,
the scrape aborts before rule "rb" is ever evaluated (ruleMetrics stays
empty), and no 200 response with the remaining rules' data is produced. -/
theorem bad_envelope_panics_scrape :
    (handler cfgAB (respAB BackendResp.badShape) [] "t").2
      = HandlerOut.panicked ∧
    (handler cfgAB (respAB BackendResp.badShape) [] "t").1 = [] :=
  ⟨by decide, by decide⟩

/-- Claim C4 (amended): when the first rule's backend call fails in a way
queryPrometheus returns as an error (transport failure or JSON syntax
failure), the handler logs it and continues with the next rule, and the
scrape returns 200 carrying the remaining rule's data. -/
theorem envelope_err_skips_rule_scrape_continues (ra : BackendResp)
    (hq : queryPrometheus ra = QPRes.err) :
    (handler cfgAB (respAB ra) [] "t").2
      = HandlerOut.ok [("rb", [(["x"], (1 : ℚ))])] := by
  cases ra with
  | transportErr => decide
  | jsonErr => decide
  | badShape => simp [queryPrometheus] at hq
  | result rows =>
    simp only [queryPrometheus] at hq
    cases hp : parseRows rows <;> rw [hp] at hq <;> simp at hq

/-- Claim C4 witness: the transport-failure instance. -/
theorem envelope_err_skips_rule_scrape_continues_witness :
    queryPrometheus BackendResp.transportErr = QPRes.err ∧
    (handler cfgAB (respAB BackendResp.transportErr) [] "t").2
      = HandlerOut.ok [("rb", [(["x"], (1 : ℚ))])] :=
  ⟨rfl, envelope_err_skips_rule_scrape_continues BackendResp.transportErr rfl⟩

/-- Claim C7, counterexample: for a known target whose backend response is
JSON of an unexpected shape, the handler panics instead of returning 200
with an exposition body — refuting the claim that a known target always
yields status 200. -/
theorem known_target_panic_not_200 :
    (handler cfg1 (fun _ _ => BackendResp.badShape) [] "t").2
      = HandlerOut.panicked := by decide

/-- Claim C7 (amended): a missing target parameter yields 400; an unknown
target yields 404 with the registry unchanged; a known target yields
either a panic (unexpected envelope shape, malformed row, or label-schema
mismatch) or 200 with an exposition body — never 400 or 404. -/
theorem probe_status_cases (cfg : Config) (resp : String → String → BackendResp)
    (rm : RM) (t1 t2 : String) (g : Group) :
    handler cfg resp rm "" = (rm, HandlerOut.badRequest) ∧
    (t1 ≠ "" → lookupA t1 cfg.targets = none →
      handler cfg resp rm t1 = (rm, HandlerOut.notFound)) ∧
    (t2 ≠ "" → lookupA t2 cfg.targets = some g →
      (handler cfg resp rm t2).2 = HandlerOut.panicked ∨
      ∃ body, (handler cfg resp rm t2).2 = HandlerOut.ok body) := by
  refine ⟨rfl, ?_, ?_⟩
  · intro ht hlk
    simp only [handler, if_neg ht, hlk]
  · intro ht hg
    have hred : handler cfg resp rm t2
        = match processRules resp g.endpoint ⟨rm, []⟩ g.rules with
          | Except.error s => (s.rm, HandlerOut.panicked)
          | Except.ok s => (s.rm, HandlerOut.ok (render s)) := by
      simp only [handler, if_neg ht, hg]
    rw [hred]
    cases processRules resp g.endpoint ⟨rm, []⟩ g.rules with
    | error s => exact Or.inl rfl
    | ok s => exact Or.inr ⟨render s, rfl⟩

/-- Claim C7 witness: the missing-parameter, unknown-target and
known-target cases at concrete inputs. -/
theorem probe_status_cases_witness :
    handler cfg1 resp1 [] "" = ([], HandlerOut.badRequest) ∧
    handler cfg1 resp1 [] "ghost" = ([], HandlerOut.notFound) ∧
    ((handler cfg1 resp1 [] "t").2 = HandlerOut.panicked ∨
      ∃ body, (handler cfg1 resp1 [] "t").2 = HandlerOut.ok body) :=
  ⟨(probe_status_cases cfg1 resp1 [] "ghost" "t" ⟨"t", [⟨"r", "q"⟩], "e"⟩).1,
   (probe_status_cases cfg1 resp1 [] "ghost" "t" ⟨"t", [⟨"r", "q"⟩], "e"⟩).2.1
     (by decide) (by decide),
   (probe_status_cases cfg1 resp1 [] "ghost" "t" ⟨"t", [⟨"r", "q"⟩], "e"⟩).2.2
     (by decide) (by decide)⟩

/-- Claim C10: when the backend's label set itself contains a label named
"value", queryPrometheus overwrites that entry with the row's numeric
string; the handler then strips the "value" key, so the exposed label set
equals the backend's labels without "value" and the original label-value
never appears among the series labels. -/
theorem value_label_overwritten (metric : Lmap) (valueStr orig : String)
    (h : lookupA "value" metric = some orig) :
    lookupA "value" metric = some orig ∧
    queryPrometheus (BackendResp.result [RawRow.row metric valueStr])
      = QPRes.ok [insertA "value" valueStr metric] ∧
    eraseValueKey (insertA "value" valueStr metric) = eraseValueKey metric ∧
    lookupA "value" (insertA "value" valueStr metric) = some valueStr ∧
    ("value", orig) ∉ eraseValueKey (insertA "value" valueStr metric) := by
  refine ⟨h, rfl, eraseValueKey_insertA_value valueStr metric,
    lookupA_insertA_self _ _ _, ?_⟩
  intro hmem
  exact eraseValueKey_key_ne _ _ hmem rfl

/-- Claim C10 witness: a backend row carrying its own "value" label. -/
theorem value_label_overwritten_witness :
    lookupA "value" [("value", "orig"), ("l", "x")] = some "orig" ∧
    queryPrometheus
        (BackendResp.result [RawRow.row [("value", "orig"), ("l", "x")] "9"])
      = QPRes.ok [insertA "value" "9" [("value", "orig"), ("l", "x")]] ∧
    eraseValueKey (insertA "value" "9" [("value", "orig"), ("l", "x")])
      = eraseValueKey [("value", "orig"), ("l", "x")] ∧
    lookupA "value" (insertA "value" "9" [("value", "orig"), ("l", "x")])
      = some "9" ∧
    ("value", "orig") ∉ eraseValueKey (insertA "value" "9"
      [("value", "orig"), ("l", "x")]) :=
  ⟨(value_label_overwritten [("value", "orig"), ("l", "x")] "9" "orig"
     (by decide)).1,
   (value_label_overwritten [("value", "orig"), ("l", "x")] "9" "orig"
     (by decide)).2.1,
   (value_label_overwritten [("value", "orig"), ("l", "x")] "9" "orig"
     (by decide)).2.2.1,
   (value_label_overwritten [("value", "orig"), ("l", "x")] "9" "orig"
     (by decide)).2.2.2.1,
   (value_label_overwritten [("value", "orig"), ("l", "x")] "9" "orig"
     (by decide)).2.2.2.2⟩

end RulesExporter
